import Mathlib

/-!
Verification of the Modbus forwarder test client's framing layer
(`src/main.rs`): the two `tokio_util` codecs `ModbusRequestCodec` and
`ModbusDataCodec`, which speak a private length-prefixed wire format
(8-byte big-endian length `N`, then `N` payload bytes).

Byte buffers (`BytesMut`) are modelled as `List Nat` with each element a
byte value (`< 256` where it matters).  `usize::MAX` of the platform is an
explicit parameter `usizeMax` of the decoders; `usize64` is its value on a
64-bit platform.  Fallible decoding returns `Except DecodeError (Option α)`
paired with the buffer contents after the call (the Rust code mutates the
buffer in place).
-/

namespace ModbusForwarder

/-- Big-endian interpretation of a byte list, as in
`u64::from_be_bytes(length_bytes)` applied to the first 8 buffered bytes. -/
def u64FromBeBytes (bs : List Nat) : Nat :=
  bs.foldl (fun acc b => acc * 256 + b) 0

/-- `k`-byte big-endian encoding of `n % 256^k` (most significant byte
first), the generalisation of `u64::to_be_bytes`. -/
def natToBeBytes : Nat → Nat → List Nat
  | 0, _ => []
  | k + 1, n => natToBeBytes k (n / 256) ++ [n % 256]

/-- `(length as u64).to_be_bytes()` from the encoders. -/
def u64ToBeBytes (n : Nat) : List Nat :=
  natToBeBytes 8 n

/-- Little-endian interpretation of a byte list (bincode integers are
little-endian). -/
def u64FromLeBytes (bs : List Nat) : Nat :=
  bs.foldr (fun b acc => b + 256 * acc) 0

/-- `k`-byte little-endian encoding of `n % 256^k`. -/
def natToLeBytes : Nat → Nat → List Nat
  | 0, _ => []
  | k + 1, n => n % 256 :: natToLeBytes k (n / 256)

/-- Two-byte little-endian encoding of a 16-bit word. -/
def u16le (n : Nat) : List Nat :=
  natToLeBytes 2 n

/-- Four-byte little-endian encoding of a 32-bit enum tag. -/
def u32le (n : Nat) : List Nat :=
  natToLeBytes 4 n

/-- Modelled from the spec: the `Request` tagged value (the
`tokio_modbus::Request` type lives in a third-party crate, not in this
repository).  Spec §3 lists exactly these five variants; `address` and
`count` are 16-bit register addresses/quantities. -/
inductive Request where
  | ReadHoldingRegisters (address count : Nat)
  | ReadCoils (address count : Nat)
  | ReadDiscreteInputs (address count : Nat)
  | ReadInputRegisters (address count : Nat)
  | Disconnect
deriving DecidableEq

/-- A `Request` is well formed when its fields fit in 16 bits, as the Rust
field types force. -/
def Request.valid : Request → Bool
  | .ReadHoldingRegisters a c => a < 65536 && c < 65536
  | .ReadCoils a c => a < 65536 && c < 65536
  | .ReadDiscreteInputs a c => a < 65536 && c < 65536
  | .ReadInputRegisters a c => a < 65536 && c < 65536
  | .Disconnect => true

/-- Modelled from the spec: `bincode::serialize` of a `Request` value
(bincode is a third-party crate, not in this repository).  Spec §4.3 allows
any self-describing tag + fixed-width-field scheme; we fix a 4-byte
little-endian variant tag followed by the two 16-bit fields, and a bare tag
for the field-less `Disconnect`. -/
def serializeRequest : Request → List Nat
  | .ReadHoldingRegisters a c => u32le 0 ++ u16le a ++ u16le c
  | .ReadCoils a c => u32le 1 ++ u16le a ++ u16le c
  | .ReadDiscreteInputs a c => u32le 2 ++ u16le a ++ u16le c
  | .ReadInputRegisters a c => u32le 3 ++ u16le a ++ u16le c
  | .Disconnect => u32le 4

/-- Modelled from the spec: `bincode::deserialize` into a `Request`
(inverse of `serializeRequest`); payload bytes that do not match the
tagged-value shape fail. -/
def deserializeRequest : List Nat → Option Request
  | [0, 0, 0, 0, a0, a1, c0, c1] =>
      some (.ReadHoldingRegisters (a0 + 256 * a1) (c0 + 256 * c1))
  | [1, 0, 0, 0, a0, a1, c0, c1] =>
      some (.ReadCoils (a0 + 256 * a1) (c0 + 256 * c1))
  | [2, 0, 0, 0, a0, a1, c0, c1] =>
      some (.ReadDiscreteInputs (a0 + 256 * a1) (c0 + 256 * c1))
  | [3, 0, 0, 0, a0, a1, c0, c1] =>
      some (.ReadInputRegisters (a0 + 256 * a1) (c0 + 256 * c1))
  | [4, 0, 0, 0] => some .Disconnect
  | _ => none

/-- Modelled from the spec: `bincode::serialize` of a `Vec<u16>` (bincode
is a third-party crate, not in this repository): an 8-byte little-endian
element count followed by the 16-bit words in order. -/
def serializeData (ws : List Nat) : List Nat :=
  natToLeBytes 8 ws.length ++ (ws.map u16le).flatten

/-- Parse exactly `count` little-endian 16-bit words and nothing else. -/
def parseWords : Nat → List Nat → Option (List Nat)
  | 0, [] => some []
  | 0, _ :: _ => none
  | _ + 1, [] => none
  | _ + 1, [_] => none
  | k + 1, b0 :: b1 :: rest =>
      (parseWords k rest).map (fun ws => (b0 + 256 * b1) :: ws)

/-- Modelled from the spec: `bincode::deserialize` into a `Vec<u16>`
(inverse of `serializeData`); payload bytes that do not match the sequence
shape fail. -/
def deserializeData (bs : List Nat) : Option (List Nat) :=
  if bs.length < 8 then none
  else parseWords (u64FromLeBytes (bs.take 8)) (bs.drop 8)

/-- The two fatal decoder errors of spec §7: a length prefix not
representable as `usize`, and payload bytes that fail to deserialize. -/
inductive DecodeError where
  | lengthOverflow
  | deserializeFailed
deriving DecidableEq

/-- `usize::MAX` on a 64-bit platform. -/
def usize64 : Nat := 2 ^ 64 - 1

namespace ModbusRequestCodec

/-- `ModbusRequestCodec::decode` from `src/main.rs`: needs 8 buffered
bytes, reads them as a big-endian `u64`, converts to `usize`
(`usizeMax` is the platform's `usize::MAX`), waits for `length` more
bytes, then splits off the prefix and payload and bincode-deserializes the
payload.  Returns the result together with the buffer contents after the
call. -/
def decode (usizeMax : Nat) (src : List Nat) :
    Except DecodeError (Option Request) × List Nat :=
  if src.length < 8 then
    (Except.ok none, src)
  else
    let length64 := u64FromBeBytes (src.take 8)
    if usizeMax < length64 then
      (Except.error DecodeError.lengthOverflow, src)
    else if src.length - 8 < length64 then
      (Except.ok none, src)
    else
      let rest := src.drop 8
      let requestBytes := rest.take length64
      let remaining := rest.drop length64
      match deserializeRequest requestBytes with
      | some request => (Except.ok (some request), remaining)
      | none => (Except.error DecodeError.deserializeFailed, remaining)

/-- `ModbusRequestCodec::encode` from `src/main.rs`: serialize the
request, append the byte length as an 8-byte big-endian prefix to `dst`,
then append the serialized body. -/
def encode (item : Request) (dst : List Nat) : List Nat :=
  let serialized := serializeRequest item
  let length := serialized.length
  dst ++ u64ToBeBytes length ++ serialized

end ModbusRequestCodec

namespace ModbusDataCodec

/-- `ModbusDataCodec::decode` from `src/main.rs`: identical framing code
to `ModbusRequestCodec::decode`, with the payload deserialized as a
`Vec<u16>`. -/
def decode (usizeMax : Nat) (src : List Nat) :
    Except DecodeError (Option (List Nat)) × List Nat :=
  if src.length < 8 then
    (Except.ok none, src)
  else
    let length64 := u64FromBeBytes (src.take 8)
    if usizeMax < length64 then
      (Except.error DecodeError.lengthOverflow, src)
    else if src.length - 8 < length64 then
      (Except.ok none, src)
    else
      let rest := src.drop 8
      let requestBytes := rest.take length64
      let remaining := rest.drop length64
      match deserializeData requestBytes with
      | some request => (Except.ok (some request), remaining)
      | none => (Except.error DecodeError.deserializeFailed, remaining)

/-- `ModbusDataCodec::encode` from `src/main.rs`: serialize the word
sequence, append the byte length as an 8-byte big-endian prefix to `dst`,
then append the serialized body. -/
def encode (item : List Nat) (dst : List Nat) : List Nat :=
  let serialized := serializeData item
  let length := serialized.length
  dst ++ u64ToBeBytes length ++ serialized

end ModbusDataCodec

/-- The framing algorithm of spec §4.1, generic over the payload
deserializer: the common skeleton both decoders instantiate. -/
def frameDecode {α : Type} (deser : List Nat → Option α) (usizeMax : Nat)
    (src : List Nat) : Except DecodeError (Option α) × List Nat :=
  if src.length < 8 then
    (Except.ok none, src)
  else
    let length64 := u64FromBeBytes (src.take 8)
    if usizeMax < length64 then
      (Except.error DecodeError.lengthOverflow, src)
    else if src.length - 8 < length64 then
      (Except.ok none, src)
    else
      let rest := src.drop 8
      let requestBytes := rest.take length64
      let remaining := rest.drop length64
      match deser requestBytes with
      | some request => (Except.ok (some request), remaining)
      | none => (Except.error DecodeError.deserializeFailed, remaining)

/-- The framing algorithm of spec §4.2, generic over the payload: the
frame an encoder emits for a serialized body. -/
def framePack (body : List Nat) : List Nat :=
  u64ToBeBytes body.length ++ body

/-! ### Byte-level arithmetic lemmas -/

lemma length_natToBeBytes : ∀ (k n : Nat), (natToBeBytes k n).length = k
  | 0, _ => rfl
  | k + 1, n => by simp [natToBeBytes, length_natToBeBytes k]

lemma length_u64ToBeBytes (n : Nat) : (u64ToBeBytes n).length = 8 :=
  length_natToBeBytes 8 n

lemma u64FromBeBytes_append_singleton (xs : List Nat) (b : Nat) :
    u64FromBeBytes (xs ++ [b]) = u64FromBeBytes xs * 256 + b := by
  simp [u64FromBeBytes, List.foldl_append]

lemma u64FromBeBytes_natToBeBytes : ∀ (k n : Nat),
    u64FromBeBytes (natToBeBytes k n) = n % 256 ^ k
  | 0, n => by simp [natToBeBytes, u64FromBeBytes, Nat.mod_one]
  | k + 1, n => by
    rw [natToBeBytes, u64FromBeBytes_append_singleton,
      u64FromBeBytes_natToBeBytes k]
    have h : n % (256 * 256 ^ k) = n % 256 + 256 * (n / 256 % 256 ^ k) :=
      Nat.mod_mul
    have hpow : (256 : Nat) ^ (k + 1) = 256 * 256 ^ k := by
      rw [Nat.pow_succ, Nat.mul_comm]
    rw [hpow, h]
    omega

lemma u64FromBeBytes_u64ToBeBytes (n : Nat) (h : n < 2 ^ 64) :
    u64FromBeBytes (u64ToBeBytes n) = n := by
  have h8 : (256 : Nat) ^ 8 = 2 ^ 64 := by norm_num
  rw [u64ToBeBytes, u64FromBeBytes_natToBeBytes, h8, Nat.mod_eq_of_lt h]

lemma u64FromBeBytes_lt (bs : List Nat) (hb : ∀ b ∈ bs, b < 256) :
    u64FromBeBytes bs < 256 ^ bs.length := by
  induction bs using List.reverseRecOn with
  | nil => simp [u64FromBeBytes]
  | append_singleton xs b ih =>
    have hxs : u64FromBeBytes xs < 256 ^ xs.length :=
      ih fun x hx => hb x (List.mem_append_left _ hx)
    have hbb : b < 256 := hb b (List.mem_append_right _ (List.mem_singleton_self b))
    rw [u64FromBeBytes_append_singleton]
    simp only [List.length_append, List.length_singleton]
    calc u64FromBeBytes xs * 256 + b
        < (u64FromBeBytes xs + 1) * 256 := by omega
      _ ≤ 256 ^ xs.length * 256 := Nat.mul_le_mul_right _ hxs
      _ = 256 ^ (xs.length + 1) := (Nat.pow_succ 256 xs.length).symm

lemma u64FromBeBytes_take8_lt (src : List Nat) (hb : ∀ b ∈ src, b < 256) :
    u64FromBeBytes (src.take 8) < 2 ^ 64 := by
  have h1 : u64FromBeBytes (src.take 8) < 256 ^ (src.take 8).length :=
    u64FromBeBytes_lt _ fun b hb' => hb b (List.mem_of_mem_take hb')
  have h2 : (src.take 8).length ≤ 8 := by
    simp [List.length_take]
  have h3 : (256 : Nat) ^ (src.take 8).length ≤ 256 ^ 8 :=
    Nat.pow_le_pow_right (by norm_num) h2
  have h4 : (256 : Nat) ^ 8 = 2 ^ 64 := by norm_num
  omega

lemma length_natToLeBytes : ∀ (k n : Nat), (natToLeBytes k n).length = k
  | 0, _ => rfl
  | k + 1, n => by simp [natToLeBytes, length_natToLeBytes k]

lemma u64FromLeBytes_natToLeBytes : ∀ (k n : Nat),
    u64FromLeBytes (natToLeBytes k n) = n % 256 ^ k
  | 0, n => by simp [natToLeBytes, u64FromLeBytes, Nat.mod_one]
  | k + 1, n => by
    rw [natToLeBytes, u64FromLeBytes, List.foldr_cons]
    rw [show List.foldr (fun b acc => b + 256 * acc) 0 (natToLeBytes k (n / 256)) =
      u64FromLeBytes (natToLeBytes k (n / 256)) from rfl]
    rw [u64FromLeBytes_natToLeBytes k]
    have h : n % (256 * 256 ^ k) = n % 256 + 256 * (n / 256 % 256 ^ k) :=
      Nat.mod_mul
    have hpow : (256 : Nat) ^ (k + 1) = 256 * 256 ^ k := by
      rw [Nat.pow_succ, Nat.mul_comm]
    rw [hpow, h]

/-! ### Payload serialization round-trips -/

lemma deserializeRequest_serializeRequest (v : Request) (hv : v.valid = true) :
    deserializeRequest (serializeRequest v) = some v := by
  cases v <;>
    simp only [Request.valid, Bool.and_eq_true, decide_eq_true_eq] at hv <;>
    simp [serializeRequest, u32le, u16le, natToLeBytes, deserializeRequest] <;>
    constructor <;> omega

lemma length_serializeRequest_le (v : Request) :
    (serializeRequest v).length ≤ 8 := by
  cases v <;> simp [serializeRequest, u32le, u16le, length_natToLeBytes]

lemma length_flatten_u16le (ws : List Nat) :
    ((ws.map u16le).flatten).length = 2 * ws.length := by
  induction ws with
  | nil => simp
  | cons w ws ih =>
    have h2 : (u16le w).length = 2 := length_natToLeBytes 2 w
    simp only [List.map_cons, List.flatten_cons, List.length_append, ih, h2,
      List.length_cons]
    omega

lemma length_serializeData (ws : List Nat) :
    (serializeData ws).length = 8 + 2 * ws.length := by
  rw [serializeData, List.length_append, length_natToLeBytes,
    length_flatten_u16le]

lemma parseWords_flatten (ws : List Nat) (hw : ∀ w ∈ ws, w < 65536) :
    parseWords ws.length ((ws.map u16le).flatten) = some ws := by
  induction ws with
  | nil => simp [parseWords]
  | cons w ws ih =>
    have hwlt : w < 65536 := hw w (List.mem_cons_self w ws)
    have hrest : ∀ x ∈ ws, x < 65536 := fun x hx => hw x (List.mem_cons_of_mem w hx)
    have hword : w % 256 + 256 * (w / 256 % 256) = w := by omega
    simp [u16le, natToLeBytes, parseWords, ih hrest, hword]

lemma deserializeData_serializeData (ws : List Nat)
    (hw : ∀ w ∈ ws, w < 65536) (hl : ws.length < 2 ^ 64) :
    deserializeData (serializeData ws) = some ws := by
  have hlen8 : (natToLeBytes 8 ws.length).length = 8 := length_natToLeBytes 8 _
  have htot : (serializeData ws).length = 8 + 2 * ws.length := length_serializeData ws
  rw [deserializeData, if_neg (by omega)]
  rw [serializeData, List.take_left' hlen8, List.drop_left' hlen8]
  rw [u64FromLeBytes_natToLeBytes]
  have h8 : (256 : Nat) ^ 8 = 2 ^ 64 := by norm_num
  rw [h8, Nat.mod_eq_of_lt hl]
  exact parseWords_flatten ws hw

/-! ### The two codecs instantiate the generic framing algorithm -/

lemma requestDecode_eq_frameDecode (u : Nat) (src : List Nat) :
    ModbusRequestCodec.decode u src = frameDecode deserializeRequest u src := by
  by_cases h8 : src.length < 8
  · simp [ModbusRequestCodec.decode, frameDecode, h8]
  · by_cases hov : u < u64FromBeBytes (src.take 8)
    · simp [ModbusRequestCodec.decode, frameDecode, h8, hov]
    · by_cases hin : src.length - 8 < u64FromBeBytes (src.take 8)
      · simp [ModbusRequestCodec.decode, frameDecode, h8, hov, hin]
      · cases hd : deserializeRequest ((src.drop 8).take (u64FromBeBytes (src.take 8))) <;>
          simp [ModbusRequestCodec.decode, frameDecode, h8, hov, hin, hd]

lemma dataDecode_eq_frameDecode (u : Nat) (src : List Nat) :
    ModbusDataCodec.decode u src = frameDecode deserializeData u src := by
  by_cases h8 : src.length < 8
  · simp [ModbusDataCodec.decode, frameDecode, h8]
  · by_cases hov : u < u64FromBeBytes (src.take 8)
    · simp [ModbusDataCodec.decode, frameDecode, h8, hov]
    · by_cases hin : src.length - 8 < u64FromBeBytes (src.take 8)
      · simp [ModbusDataCodec.decode, frameDecode, h8, hov, hin]
      · cases hd : deserializeData ((src.drop 8).take (u64FromBeBytes (src.take 8))) <;>
          simp [ModbusDataCodec.decode, frameDecode, h8, hov, hin, hd]

lemma requestEncode_eq_framePack (item : Request) (dst : List Nat) :
    ModbusRequestCodec.encode item dst = dst ++ framePack (serializeRequest item) := by
  simp [ModbusRequestCodec.encode, framePack]

lemma dataEncode_eq_framePack (ws : List Nat) (dst : List Nat) :
    ModbusDataCodec.encode ws dst = dst ++ framePack (serializeData ws) := by
  simp [ModbusDataCodec.encode, framePack]

/-! ### Behaviour of the generic framing decoder, branch by branch -/

lemma frameDecode_short {α : Type} (deser : List Nat → Option α) (u : Nat)
    (src : List Nat) (h : src.length < 8) :
    frameDecode deser u src = (Except.ok none, src) := by
  simp [frameDecode, h]

lemma frameDecode_overflow {α : Type} (deser : List Nat → Option α) (u : Nat)
    (src : List Nat) (h8 : 8 ≤ src.length)
    (hov : u < u64FromBeBytes (src.take 8)) :
    frameDecode deser u src = (Except.error DecodeError.lengthOverflow, src) := by
  simp [frameDecode, Nat.not_lt.mpr h8, hov]

lemma frameDecode_needMore {α : Type} (deser : List Nat → Option α) (u : Nat)
    (src : List Nat) (h8 : 8 ≤ src.length)
    (hle : u64FromBeBytes (src.take 8) ≤ u)
    (hin : src.length - 8 < u64FromBeBytes (src.take 8)) :
    frameDecode deser u src = (Except.ok none, src) := by
  simp [frameDecode, Nat.not_lt.mpr h8, Nat.not_lt.mpr hle, hin]

lemma frameDecode_frame {α : Type} (deser : List Nat → Option α) (u : Nat)
    (payload rest : List Nat) (hu : payload.length ≤ u)
    (hn : payload.length < 2 ^ 64) :
    frameDecode deser u (u64ToBeBytes payload.length ++ (payload ++ rest)) =
      (match deser payload with
        | some v => (Except.ok (some v), rest)
        | none => (Except.error DecodeError.deserializeFailed, rest)) := by
  have hpre : (u64ToBeBytes payload.length).length = 8 := length_u64ToBeBytes _
  have htake : (u64ToBeBytes payload.length ++ (payload ++ rest)).take 8 =
      u64ToBeBytes payload.length := List.take_left' hpre
  have hdrop : (u64ToBeBytes payload.length ++ (payload ++ rest)).drop 8 =
      payload ++ rest := List.drop_left' hpre
  have hlen : (u64ToBeBytes payload.length ++ (payload ++ rest)).length =
      8 + (payload.length + rest.length) := by
    simp [List.length_append, hpre]
  have hval : u64FromBeBytes
      ((u64ToBeBytes payload.length ++ (payload ++ rest)).take 8) =
      payload.length := by
    rw [htake, u64FromBeBytes_u64ToBeBytes _ hn]
  rw [frameDecode]
  rw [if_neg (by omega)]
  simp only [hval, hdrop]
  rw [if_neg (Nat.not_lt.mpr hu), if_neg (by omega)]
  rw [List.take_left' rfl, List.drop_left' rfl]

lemma frameDecode_take_incomplete {α : Type} (deser : List Nat → Option α)
    (u : Nat) (body : List Nat) (k : Nat) (hn : body.length < 2 ^ 64)
    (hu : body.length ≤ u) (hk : k < 8 + body.length) :
    frameDecode deser u ((framePack body).take k) =
      (Except.ok none, (framePack body).take k) := by
  have hpre : (u64ToBeBytes body.length).length = 8 := length_u64ToBeBytes _
  have hpack : (framePack body).length = 8 + body.length := by
    simp [framePack, List.length_append, hpre]
  by_cases h8 : k < 8
  · apply frameDecode_short
    simp only [List.length_take]
    omega
  · have hlen : ((framePack body).take k).length = k := by
      simp only [List.length_take]
      omega
    have htake8 : ((framePack body).take k).take 8 = u64ToBeBytes body.length := by
      rw [List.take_take]
      have hmin : min 8 k = 8 := by omega
      rw [hmin, framePack, List.take_left' hpre]
    have hval : u64FromBeBytes (((framePack body).take k).take 8) = body.length := by
      rw [htake8, u64FromBeBytes_u64ToBeBytes _ hn]
    apply frameDecode_needMore
    · omega
    · rw [hval]; exact hu
    · rw [hval]; omega

lemma frameDecode_framePack {α : Type} (deser : List Nat → Option α) (u : Nat)
    (body : List Nat) (hu : body.length ≤ u) (hn : body.length < 2 ^ 64) :
    frameDecode deser u (framePack body) =
      (match deser body with
        | some v => (Except.ok (some v), ([] : List Nat))
        | none => (Except.error DecodeError.deserializeFailed, ([] : List Nat))) := by
  rw [framePack]
  have h := frameDecode_frame deser u body [] hu hn
  rwa [List.append_nil] at h

lemma usize64_eq : usize64 = 2 ^ 64 - 1 := rfl

lemma le_usize64_of_lt (n : Nat) (h : n < 2 ^ 64) : n ≤ usize64 := by
  rw [usize64_eq]
  omega

lemma length_serializeRequest_lt (v : Request) :
    (serializeRequest v).length < 2 ^ 64 := by
  have h := length_serializeRequest_le v
  have h2 : (8 : Nat) < 2 ^ 64 := by norm_num
  omega

/-! ### Claim theorems -/

/-- C1: decoding the bytes produced by `ModbusRequestCodec::encode` on any
valid `Request` yields that request back, and decoding the bytes produced
by `ModbusDataCodec::encode` on any sequence of 16-bit words (the empty
sequence included) yields that sequence back, in both cases consuming the
whole frame. -/
theorem request_data_round_trip (v : Request) (ws : List Nat)
    (hv : v.valid = true) (hw : ∀ w ∈ ws, w < 65536)
    (hl : 8 + 2 * ws.length < 2 ^ 64) :
    ModbusRequestCodec.decode usize64 (ModbusRequestCodec.encode v []) =
      (Except.ok (some v), []) ∧
    ModbusDataCodec.decode usize64 (ModbusDataCodec.encode ws []) =
      (Except.ok (some ws), []) := by
  constructor
  · rw [requestDecode_eq_frameDecode,
      requestEncode_eq_framePack, List.nil_append]
    rw [frameDecode_framePack deserializeRequest usize64 (serializeRequest v)
      (le_usize64_of_lt _ (length_serializeRequest_lt v))
      (length_serializeRequest_lt v)]
    rw [deserializeRequest_serializeRequest v hv]
  · have hlen : (serializeData ws).length = 8 + 2 * ws.length :=
      length_serializeData ws
    have hlt : (serializeData ws).length < 2 ^ 64 := by omega
    rw [dataDecode_eq_frameDecode,
      dataEncode_eq_framePack, List.nil_append]
    rw [frameDecode_framePack deserializeData usize64 (serializeData ws)
      (le_usize64_of_lt _ hlt) hlt]
    rw [deserializeData_serializeData ws hw (by omega)]

/-- Witness for C1 at `ReadCoils(7, 3)`, the empty word sequence, and the
word sequence `[1, 65535]`. -/
theorem request_data_round_trip_witness :
    Request.valid (Request.ReadCoils 7 3) = true ∧
    ModbusRequestCodec.decode usize64
        (ModbusRequestCodec.encode (Request.ReadCoils 7 3) []) =
      (Except.ok (some (Request.ReadCoils 7 3)), []) ∧
    ModbusDataCodec.decode usize64 (ModbusDataCodec.encode [] []) =
      (Except.ok (some ([] : List Nat)), []) ∧
    ModbusDataCodec.decode usize64 (ModbusDataCodec.encode [1, 65535] []) =
      (Except.ok (some [1, 65535]), []) :=
  ⟨rfl,
   (request_data_round_trip (Request.ReadCoils 7 3) [] rfl (by decide)
     (by decide)).1,
   (request_data_round_trip (Request.ReadCoils 7 3) [] rfl (by decide)
     (by decide)).2,
   (request_data_round_trip (Request.ReadCoils 7 3) [1, 65535] rfl (by decide)
     (by decide)).2⟩

/-- C2: each encoder appends to the outbound buffer exactly an 8-byte
big-endian length prefix followed by the serialized body, and the value of
that prefix equals the exact byte length of the body. -/
theorem encode_length_prefixed (v : Request) (ws dst dst2 : List Nat)
    (hl : 8 + 2 * ws.length < 2 ^ 64) :
    (ModbusRequestCodec.encode v dst =
        dst ++ u64ToBeBytes (serializeRequest v).length ++ serializeRequest v ∧
      (u64ToBeBytes (serializeRequest v).length).length = 8 ∧
      u64FromBeBytes (u64ToBeBytes (serializeRequest v).length) =
        (serializeRequest v).length) ∧
    (ModbusDataCodec.encode ws dst2 =
        dst2 ++ u64ToBeBytes (serializeData ws).length ++ serializeData ws ∧
      (u64ToBeBytes (serializeData ws).length).length = 8 ∧
      u64FromBeBytes (u64ToBeBytes (serializeData ws).length) =
        (serializeData ws).length) := by
  refine ⟨⟨rfl, length_u64ToBeBytes _, ?_⟩, ⟨rfl, length_u64ToBeBytes _, ?_⟩⟩
  · exact u64FromBeBytes_u64ToBeBytes _ (length_serializeRequest_lt v)
  · have hlen : (serializeData ws).length = 8 + 2 * ws.length :=
      length_serializeData ws
    exact u64FromBeBytes_u64ToBeBytes _ (by omega)

/-- Witness for C2 at scenario A's `ReadHoldingRegisters(0, 16)` and at the
word sequence `[3]`. -/
theorem encode_length_prefixed_witness :
    8 + 2 * ([3] : List Nat).length < 2 ^ 64 ∧
    (ModbusRequestCodec.encode (Request.ReadHoldingRegisters 0 16) [] =
        [] ++ u64ToBeBytes (serializeRequest (Request.ReadHoldingRegisters 0 16)).length ++
          serializeRequest (Request.ReadHoldingRegisters 0 16) ∧
      (u64ToBeBytes (serializeRequest (Request.ReadHoldingRegisters 0 16)).length).length = 8 ∧
      u64FromBeBytes (u64ToBeBytes (serializeRequest (Request.ReadHoldingRegisters 0 16)).length) =
        (serializeRequest (Request.ReadHoldingRegisters 0 16)).length) ∧
    (ModbusDataCodec.encode [3] [170] =
        [170] ++ u64ToBeBytes (serializeData [3]).length ++ serializeData [3] ∧
      (u64ToBeBytes (serializeData [3]).length).length = 8 ∧
      u64FromBeBytes (u64ToBeBytes (serializeData [3]).length) =
        (serializeData [3]).length) :=
  ⟨by decide,
   (encode_length_prefixed (Request.ReadHoldingRegisters 0 16) [3] [] [170]
     (by decide)).1,
   (encode_length_prefixed (Request.ReadHoldingRegisters 0 16) [3] [] [170]
     (by decide)).2⟩

/-- C3: on a buffer of fewer than 8 bytes, and on a buffer of at least 8
bytes whose big-endian length prefix `N` is not yet matched by `N`
buffered payload bytes, both decoders return `None` (NeedMoreBytes) and
leave the buffer exactly as it was, prefix included. -/
theorem insufficient_input_non_destructive (src : List Nat)
    (hb : ∀ b ∈ src, b < 256) :
    (src.length < 8 →
      ModbusRequestCodec.decode usize64 src = (Except.ok none, src) ∧
      ModbusDataCodec.decode usize64 src = (Except.ok none, src)) ∧
    (8 ≤ src.length → src.length - 8 < u64FromBeBytes (src.take 8) →
      ModbusRequestCodec.decode usize64 src = (Except.ok none, src) ∧
      ModbusDataCodec.decode usize64 src = (Except.ok none, src)) := by
  constructor
  · intro h8
    rw [requestDecode_eq_frameDecode,
      dataDecode_eq_frameDecode]
    exact ⟨frameDecode_short _ _ _ h8, frameDecode_short _ _ _ h8⟩
  · intro h8 hin
    have hle : u64FromBeBytes (src.take 8) ≤ usize64 :=
      le_usize64_of_lt _ (u64FromBeBytes_take8_lt src hb)
    rw [requestDecode_eq_frameDecode,
      dataDecode_eq_frameDecode]
    exact ⟨frameDecode_needMore _ _ _ h8 hle hin,
      frameDecode_needMore _ _ _ h8 hle hin⟩

/-- Witness for C3 on a 7-byte buffer and on an 8-byte buffer whose prefix
announces 5 payload bytes that have not arrived. -/
theorem insufficient_input_non_destructive_witness :
    (∀ b ∈ ([1, 2, 3, 4, 5, 6, 7] : List Nat), b < 256) ∧
    ModbusRequestCodec.decode usize64 [1, 2, 3, 4, 5, 6, 7] =
      (Except.ok none, [1, 2, 3, 4, 5, 6, 7]) ∧
    ModbusDataCodec.decode usize64 [1, 2, 3, 4, 5, 6, 7] =
      (Except.ok none, [1, 2, 3, 4, 5, 6, 7]) ∧
    ModbusRequestCodec.decode usize64 [0, 0, 0, 0, 0, 0, 0, 5] =
      (Except.ok none, [0, 0, 0, 0, 0, 0, 0, 5]) ∧
    ModbusDataCodec.decode usize64 [0, 0, 0, 0, 0, 0, 0, 5] =
      (Except.ok none, [0, 0, 0, 0, 0, 0, 0, 5]) :=
  ⟨by decide,
   ((insufficient_input_non_destructive [1, 2, 3, 4, 5, 6, 7] (by decide)).1
     (by decide)).1,
   ((insufficient_input_non_destructive [1, 2, 3, 4, 5, 6, 7] (by decide)).1
     (by decide)).2,
   ((insufficient_input_non_destructive [0, 0, 0, 0, 0, 0, 0, 5] (by decide)).2
     (by decide) (by decide)).1,
   ((insufficient_input_non_destructive [0, 0, 0, 0, 0, 0, 0, 5] (by decide)).2
     (by decide) (by decide)).2⟩

lemma length_framePack (body : List Nat) : (framePack body).length = 8 + body.length := by
  simp [framePack, List.length_append, length_u64ToBeBytes]

lemma frameDecode_framePack_append {α : Type} (deser : List Nat → Option α)
    (u : Nat) (body rest : List Nat) (hu : body.length ≤ u)
    (hn : body.length < 2 ^ 64) (v : α) (hd : deser body = some v) :
    frameDecode deser u (framePack body ++ rest) = (Except.ok (some v), rest) := by
  rw [framePack, List.append_assoc,
    frameDecode_frame deser u body rest hu hn, hd]

/-- C4: feeding an encoded frame to the matching decoder byte by byte
yields `None` (NeedMoreBytes) on every proper prefix of the frame, and on
the complete frame yields exactly the encoded message with an empty
buffer left over — for both codecs. -/
theorem byte_at_a_time_delivery (v : Request) (ws : List Nat)
    (hv : v.valid = true) (hw : ∀ w ∈ ws, w < 65536)
    (hl : 8 + 2 * ws.length < 2 ^ 64) :
    (∀ k, k < (ModbusRequestCodec.encode v []).length →
      ModbusRequestCodec.decode usize64 ((ModbusRequestCodec.encode v []).take k) =
        (Except.ok none, (ModbusRequestCodec.encode v []).take k)) ∧
    ModbusRequestCodec.decode usize64 (ModbusRequestCodec.encode v []) =
      (Except.ok (some v), []) ∧
    (∀ k, k < (ModbusDataCodec.encode ws []).length →
      ModbusDataCodec.decode usize64 ((ModbusDataCodec.encode ws []).take k) =
        (Except.ok none, (ModbusDataCodec.encode ws []).take k)) ∧
    ModbusDataCodec.decode usize64 (ModbusDataCodec.encode ws []) =
      (Except.ok (some ws), []) := by
  have hnr : (serializeRequest v).length < 2 ^ 64 := length_serializeRequest_lt v
  have hur : (serializeRequest v).length ≤ usize64 := le_usize64_of_lt _ hnr
  have hlend : (serializeData ws).length = 8 + 2 * ws.length := length_serializeData ws
  have hnd : (serializeData ws).length < 2 ^ 64 := by omega
  have hud : (serializeData ws).length ≤ usize64 := le_usize64_of_lt _ hnd
  refine ⟨?_, ?_, ?_, ?_⟩
  · intro k hk
    rw [requestEncode_eq_framePack, List.nil_append] at hk ⊢
    rw [length_framePack] at hk
    rw [requestDecode_eq_frameDecode]
    exact frameDecode_take_incomplete deserializeRequest usize64 _ k hnr hur hk
  · rw [requestDecode_eq_frameDecode,
      requestEncode_eq_framePack, List.nil_append,
      frameDecode_framePack deserializeRequest usize64 _ hur hnr,
      deserializeRequest_serializeRequest v hv]
  · intro k hk
    rw [dataEncode_eq_framePack, List.nil_append] at hk ⊢
    rw [length_framePack] at hk
    rw [dataDecode_eq_frameDecode]
    exact frameDecode_take_incomplete deserializeData usize64 _ k hnd hud hk
  · rw [dataDecode_eq_frameDecode,
      dataEncode_eq_framePack, List.nil_append,
      frameDecode_framePack deserializeData usize64 _ hud hnd,
      deserializeData_serializeData ws hw (by omega)]

/-- Witness for C4 at `Disconnect` (12-byte frame, proper prefix length
11) and the word sequence `[7]` (18-byte frame, proper prefix length 9). -/
theorem byte_at_a_time_delivery_witness :
    ModbusRequestCodec.decode usize64 ((ModbusRequestCodec.encode Request.Disconnect []).take 11) =
      (Except.ok none, (ModbusRequestCodec.encode Request.Disconnect []).take 11) ∧
    ModbusRequestCodec.decode usize64 (ModbusRequestCodec.encode Request.Disconnect []) =
      (Except.ok (some Request.Disconnect), []) ∧
    ModbusDataCodec.decode usize64 ((ModbusDataCodec.encode [7] []).take 9) =
      (Except.ok none, (ModbusDataCodec.encode [7] []).take 9) ∧
    ModbusDataCodec.decode usize64 (ModbusDataCodec.encode [7] []) =
      (Except.ok (some [7]), []) :=
  ⟨(byte_at_a_time_delivery Request.Disconnect [7] rfl (by decide)
      (by decide)).1 11 (by decide),
   (byte_at_a_time_delivery Request.Disconnect [7] rfl (by decide)
      (by decide)).2.1,
   (byte_at_a_time_delivery Request.Disconnect [7] rfl (by decide)
      (by decide)).2.2.1 9 (by decide),
   (byte_at_a_time_delivery Request.Disconnect [7] rfl (by decide)
      (by decide)).2.2.2⟩

/-- C5: decoding the concatenation of two independently encoded frames
yields the first message while leaving exactly the second frame's bytes
buffered, and a second decode call then yields the second message with an
empty buffer — for both codecs, in original order. -/
theorem frame_concatenation (v1 v2 : Request) (ws1 ws2 : List Nat)
    (hv1 : v1.valid = true) (hv2 : v2.valid = true)
    (hw1 : ∀ w ∈ ws1, w < 65536) (hw2 : ∀ w ∈ ws2, w < 65536)
    (hl1 : 8 + 2 * ws1.length < 2 ^ 64) (hl2 : 8 + 2 * ws2.length < 2 ^ 64) :
    (ModbusRequestCodec.decode usize64
        (ModbusRequestCodec.encode v1 [] ++ ModbusRequestCodec.encode v2 []) =
      (Except.ok (some v1), ModbusRequestCodec.encode v2 []) ∧
     ModbusRequestCodec.decode usize64 (ModbusRequestCodec.encode v2 []) =
      (Except.ok (some v2), [])) ∧
    (ModbusDataCodec.decode usize64
        (ModbusDataCodec.encode ws1 [] ++ ModbusDataCodec.encode ws2 []) =
      (Except.ok (some ws1), ModbusDataCodec.encode ws2 []) ∧
     ModbusDataCodec.decode usize64 (ModbusDataCodec.encode ws2 []) =
      (Except.ok (some ws2), [])) := by
  have hn1 : (serializeRequest v1).length < 2 ^ 64 := length_serializeRequest_lt v1
  have hn2 : (serializeRequest v2).length < 2 ^ 64 := length_serializeRequest_lt v2
  have hd1 : (serializeData ws1).length = 8 + 2 * ws1.length := length_serializeData ws1
  have hd2 : (serializeData ws2).length = 8 + 2 * ws2.length := length_serializeData ws2
  have hnd1 : (serializeData ws1).length < 2 ^ 64 := by omega
  have hnd2 : (serializeData ws2).length < 2 ^ 64 := by omega
  refine ⟨⟨?_, ?_⟩, ⟨?_, ?_⟩⟩
  · rw [requestDecode_eq_frameDecode,
      requestEncode_eq_framePack v1 [], List.nil_append]
    exact frameDecode_framePack_append deserializeRequest usize64 _ _
      (le_usize64_of_lt _ hn1) hn1 v1 (deserializeRequest_serializeRequest v1 hv1)
  · rw [requestDecode_eq_frameDecode,
      requestEncode_eq_framePack v2 [], List.nil_append,
      frameDecode_framePack deserializeRequest usize64 _
        (le_usize64_of_lt _ hn2) hn2,
      deserializeRequest_serializeRequest v2 hv2]
  · rw [dataDecode_eq_frameDecode,
      dataEncode_eq_framePack ws1 [], List.nil_append]
    exact frameDecode_framePack_append deserializeData usize64 _ _
      (le_usize64_of_lt _ hnd1) hnd1 ws1
      (deserializeData_serializeData ws1 hw1 (by omega))
  · rw [dataDecode_eq_frameDecode,
      dataEncode_eq_framePack ws2 [], List.nil_append,
      frameDecode_framePack deserializeData usize64 _
        (le_usize64_of_lt _ hnd2) hnd2,
      deserializeData_serializeData ws2 hw2 (by omega)]

/-- Witness for C5 at the pair `ReadCoils(0, 3)`, `ReadDiscreteInputs(0, 16)`
(spec scenario B's outbound pair) and the word-sequence pair `[1]`, `[2, 9]`. -/
theorem frame_concatenation_witness :
    ModbusRequestCodec.decode usize64
        (ModbusRequestCodec.encode (Request.ReadCoils 0 3) [] ++
          ModbusRequestCodec.encode (Request.ReadDiscreteInputs 0 16) []) =
      (Except.ok (some (Request.ReadCoils 0 3)),
        ModbusRequestCodec.encode (Request.ReadDiscreteInputs 0 16) []) ∧
    ModbusRequestCodec.decode usize64
        (ModbusRequestCodec.encode (Request.ReadDiscreteInputs 0 16) []) =
      (Except.ok (some (Request.ReadDiscreteInputs 0 16)), []) ∧
    ModbusDataCodec.decode usize64
        (ModbusDataCodec.encode [1] [] ++ ModbusDataCodec.encode [2, 9] []) =
      (Except.ok (some [1]), ModbusDataCodec.encode [2, 9] []) ∧
    ModbusDataCodec.decode usize64 (ModbusDataCodec.encode [2, 9] []) =
      (Except.ok (some [2, 9]), []) :=
  ⟨(frame_concatenation (Request.ReadCoils 0 3) (Request.ReadDiscreteInputs 0 16)
      [1] [2, 9] rfl rfl (by decide) (by decide) (by decide) (by decide)).1.1,
   (frame_concatenation (Request.ReadCoils 0 3) (Request.ReadDiscreteInputs 0 16)
      [1] [2, 9] rfl rfl (by decide) (by decide) (by decide) (by decide)).1.2,
   (frame_concatenation (Request.ReadCoils 0 3) (Request.ReadDiscreteInputs 0 16)
      [1] [2, 9] rfl rfl (by decide) (by decide) (by decide) (by decide)).2.1,
   (frame_concatenation (Request.ReadCoils 0 3) (Request.ReadDiscreteInputs 0 16)
      [1] [2, 9] rfl rfl (by decide) (by decide) (by decide) (by decide)).2.2⟩

/-- C6: when the 8-byte big-endian prefix holds a value larger than the
platform's `usize::MAX`, `usize::try_from` fails and both decoders return
the fatal `lengthOverflow` error (no truncation, no wrap-around), leaving
the buffer as it was. -/
theorem oversized_length_fatal (usizeMax : Nat) (src : List Nat)
    (h8 : 8 ≤ src.length) (hov : usizeMax < u64FromBeBytes (src.take 8)) :
    ModbusRequestCodec.decode usizeMax src =
      (Except.error DecodeError.lengthOverflow, src) ∧
    ModbusDataCodec.decode usizeMax src =
      (Except.error DecodeError.lengthOverflow, src) := by
  rw [requestDecode_eq_frameDecode,
    dataDecode_eq_frameDecode]
  exact ⟨frameDecode_overflow _ _ _ h8 hov, frameDecode_overflow _ _ _ h8 hov⟩

/-- Witness for C6 on a 32-bit platform (`usize::MAX = 2^32 - 1`) with a
prefix announcing `2^56` payload bytes. -/
theorem oversized_length_fatal_witness :
    (2 ^ 32 - 1 : Nat) < u64FromBeBytes (([1, 0, 0, 0, 0, 0, 0, 0] : List Nat).take 8) ∧
    ModbusRequestCodec.decode (2 ^ 32 - 1) [1, 0, 0, 0, 0, 0, 0, 0] =
      (Except.error DecodeError.lengthOverflow, [1, 0, 0, 0, 0, 0, 0, 0]) ∧
    ModbusDataCodec.decode (2 ^ 32 - 1) [1, 0, 0, 0, 0, 0, 0, 0] =
      (Except.error DecodeError.lengthOverflow, [1, 0, 0, 0, 0, 0, 0, 0]) :=
  ⟨by decide,
   (oversized_length_fatal (2 ^ 32 - 1) [1, 0, 0, 0, 0, 0, 0, 0] (by decide)
     (by decide)).1,
   (oversized_length_fatal (2 ^ 32 - 1) [1, 0, 0, 0, 0, 0, 0, 0] (by decide)
     (by decide)).2⟩

/-- C7: on a complete frame whose payload bytes fail to deserialize into
the expected typed structure, each decoder returns the fatal
`deserializeFailed` error — not a payload and not NeedMoreBytes. -/
theorem undeserializable_payload_fatal (u : Nat) (payload rest : List Nat)
    (hn : payload.length < 2 ^ 64) (hu : payload.length ≤ u) :
    (deserializeRequest payload = none →
      (ModbusRequestCodec.decode u
          (u64ToBeBytes payload.length ++ (payload ++ rest))).1 =
        Except.error DecodeError.deserializeFailed) ∧
    (deserializeData payload = none →
      (ModbusDataCodec.decode u
          (u64ToBeBytes payload.length ++ (payload ++ rest))).1 =
        Except.error DecodeError.deserializeFailed) := by
  constructor
  · intro hd
    rw [requestDecode_eq_frameDecode,
      frameDecode_frame deserializeRequest u payload rest hu hn, hd]
  · intro hd
    rw [dataDecode_eq_frameDecode,
      frameDecode_frame deserializeData u payload rest hu hn, hd]

/-- Witness for C7: the single byte `9` is a complete 1-byte payload that
neither deserializer accepts. -/
theorem undeserializable_payload_fatal_witness :
    deserializeRequest [9] = none ∧
    deserializeData [9] = none ∧
    (ModbusRequestCodec.decode usize64
        (u64ToBeBytes ([9] : List Nat).length ++ ([9] ++ [2, 3]))).1 =
      Except.error DecodeError.deserializeFailed ∧
    (ModbusDataCodec.decode usize64
        (u64ToBeBytes ([9] : List Nat).length ++ ([9] ++ [2, 3]))).1 =
      Except.error DecodeError.deserializeFailed :=
  ⟨rfl, rfl,
   (undeserializable_payload_fatal usize64 [9] [2, 3] (by decide) (by decide)).1 rfl,
   (undeserializable_payload_fatal usize64 [9] [2, 3] (by decide) (by decide)).2 rfl⟩

lemma frameDecode_snd_congr {α β : Type} (deser1 : List Nat → Option α)
    (deser2 : List Nat → Option β) (u : Nat) (src : List Nat) :
    (frameDecode deser1 u src).2 = (frameDecode deser2 u src).2 := by
  by_cases h8 : src.length < 8
  · simp [frameDecode, h8]
  · by_cases hov : u < u64FromBeBytes (src.take 8)
    · simp [frameDecode, h8, hov]
    · by_cases hin : src.length - 8 < u64FromBeBytes (src.take 8)
      · simp [frameDecode, h8, hov, hin]
      · cases hd1 : deser1 ((src.drop 8).take (u64FromBeBytes (src.take 8))) <;>
        cases hd2 : deser2 ((src.drop 8).take (u64FromBeBytes (src.take 8))) <;>
          simp [frameDecode, h8, hov, hin, hd1, hd2]

/-- C8: both codecs implement the very same framing algorithm: each
decoder is the generic `frameDecode` instantiated with its payload
deserializer (so both make the same NeedMoreBytes/overflow decision, parse
the same length, and leave the same buffer behind on every input), and
each encoder wraps its serialized body in the same `framePack` framing. -/
theorem codecs_share_framing :
    (∀ u src, ModbusRequestCodec.decode u src = frameDecode deserializeRequest u src) ∧
    (∀ u src, ModbusDataCodec.decode u src = frameDecode deserializeData u src) ∧
    (∀ u src, (ModbusRequestCodec.decode u src).2 = (ModbusDataCodec.decode u src).2) ∧
    (∀ item dst, ModbusRequestCodec.encode item dst =
      dst ++ framePack (serializeRequest item)) ∧
    (∀ ws dst, ModbusDataCodec.encode ws dst =
      dst ++ framePack (serializeData ws)) :=
  ⟨requestDecode_eq_frameDecode,
   dataDecode_eq_frameDecode,
   fun u src => by
     rw [requestDecode_eq_frameDecode,
       dataDecode_eq_frameDecode]
     exact frameDecode_snd_congr _ _ u src,
   requestEncode_eq_framePack,
   dataEncode_eq_framePack⟩

lemma frameDecode_fst_ne_overflow {α : Type} (deser : List Nat → Option α)
    (src : List Nat) (hb : ∀ b ∈ src, b < 256) :
    (frameDecode deser usize64 src).1 ≠ Except.error DecodeError.lengthOverflow := by
  have hle : u64FromBeBytes (src.take 8) ≤ usize64 :=
    le_usize64_of_lt _ (u64FromBeBytes_take8_lt src hb)
  by_cases h8 : src.length < 8
  · simp [frameDecode, h8]
  · by_cases hin : src.length - 8 < u64FromBeBytes (src.take 8)
    · simp [frameDecode, h8, Nat.not_lt.mpr hle, hin]
    · cases hd : deser ((src.drop 8).take (u64FromBeBytes (src.take 8))) <;>
        simp [frameDecode, h8, Nat.not_lt.mpr hle, hin, hd]

/-- C9: on a 64-bit platform (`usize::MAX = 2^64 - 1`) the
`usize::try_from` error branch is unreachable: on any byte buffer neither
decoder ever returns `lengthOverflow`, and as long as fewer than `8 + N`
bytes are buffered (`N` the 8-byte big-endian prefix value, however
large), both decoders keep returning `None` (NeedMoreBytes) with the
buffer untouched. -/
theorem length_conversion_unreachable_on_64bit (src : List Nat)
    (hb : ∀ b ∈ src, b < 256) :
    ((ModbusRequestCodec.decode usize64 src).1 ≠
        Except.error DecodeError.lengthOverflow ∧
      (ModbusDataCodec.decode usize64 src).1 ≠
        Except.error DecodeError.lengthOverflow) ∧
    (src.length < 8 + u64FromBeBytes (src.take 8) →
      ModbusRequestCodec.decode usize64 src = (Except.ok none, src) ∧
      ModbusDataCodec.decode usize64 src = (Except.ok none, src)) := by
  constructor
  · rw [requestDecode_eq_frameDecode,
      dataDecode_eq_frameDecode]
    exact ⟨frameDecode_fst_ne_overflow _ _ hb, frameDecode_fst_ne_overflow _ _ hb⟩
  · intro hlt
    rw [requestDecode_eq_frameDecode,
      dataDecode_eq_frameDecode]
    by_cases h8 : src.length < 8
    · exact ⟨frameDecode_short _ _ _ h8, frameDecode_short _ _ _ h8⟩
    · have h8le : 8 ≤ src.length := by omega
      have hin : src.length - 8 < u64FromBeBytes (src.take 8) := by omega
      have hle : u64FromBeBytes (src.take 8) ≤ usize64 :=
        le_usize64_of_lt _ (u64FromBeBytes_take8_lt src hb)
      exact ⟨frameDecode_needMore _ _ _ h8le hle hin,
        frameDecode_needMore _ _ _ h8le hle hin⟩

/-- Witness for C9 on the 8-byte buffer of `0xFF` bytes, whose prefix
announces `2^64 - 1` payload bytes: both decoders wait rather than err. -/
theorem length_conversion_unreachable_on_64bit_witness :
    (∀ b ∈ ([255, 255, 255, 255, 255, 255, 255, 255] : List Nat), b < 256) ∧
    ModbusRequestCodec.decode usize64 [255, 255, 255, 255, 255, 255, 255, 255] =
      (Except.ok none, [255, 255, 255, 255, 255, 255, 255, 255]) ∧
    ModbusDataCodec.decode usize64 [255, 255, 255, 255, 255, 255, 255, 255] =
      (Except.ok none, [255, 255, 255, 255, 255, 255, 255, 255]) :=
  ⟨by decide,
   ((length_conversion_unreachable_on_64bit
       [255, 255, 255, 255, 255, 255, 255, 255] (by decide)).2 (by decide)).1,
   ((length_conversion_unreachable_on_64bit
       [255, 255, 255, 255, 255, 255, 255, 255] (by decide)).2 (by decide)).2⟩

/-- C10: a deserialization failure on a complete frame is not atomic with
respect to the buffer: the decoder has already split off the 8 prefix
bytes and the N payload bytes when the error is returned, so the buffer
then holds exactly the bytes that followed the failed frame. -/
theorem deserialize_error_consumes_frame (u : Nat) (payload rest : List Nat)
    (hn : payload.length < 2 ^ 64) (hu : payload.length ≤ u) :
    (deserializeRequest payload = none →
      ModbusRequestCodec.decode u
          (u64ToBeBytes payload.length ++ (payload ++ rest)) =
        (Except.error DecodeError.deserializeFailed, rest)) ∧
    (deserializeData payload = none →
      ModbusDataCodec.decode u
          (u64ToBeBytes payload.length ++ (payload ++ rest)) =
        (Except.error DecodeError.deserializeFailed, rest)) := by
  constructor
  · intro hd
    rw [requestDecode_eq_frameDecode,
      frameDecode_frame deserializeRequest u payload rest hu hn, hd]
  · intro hd
    rw [dataDecode_eq_frameDecode,
      frameDecode_frame deserializeData u payload rest hu hn, hd]

/-- Witness for C10: a 2-byte payload `[77, 5]` neither deserializer
accepts, followed by one extra byte `[9]` which is all that remains
buffered after the error. -/
theorem deserialize_error_consumes_frame_witness :
    deserializeRequest [77, 5] = none ∧
    deserializeData [77, 5] = none ∧
    ModbusRequestCodec.decode usize64
        (u64ToBeBytes ([77, 5] : List Nat).length ++ ([77, 5] ++ [9])) =
      (Except.error DecodeError.deserializeFailed, [9]) ∧
    ModbusDataCodec.decode usize64
        (u64ToBeBytes ([77, 5] : List Nat).length ++ ([77, 5] ++ [9])) =
      (Except.error DecodeError.deserializeFailed, [9]) :=
  ⟨rfl, rfl,
   (deserialize_error_consumes_frame usize64 [77, 5] [9] (by decide)
     (by decide)).1 rfl,
   (deserialize_error_consumes_frame usize64 [77, 5] [9] (by decide)
     (by decide)).2 rfl⟩

end ModbusForwarder
